import Mathlib

/-!
Shallow embedding of the `middleman-nft` escrow contract
(`src/middleman/src/lib.rs`), an Elrond/MultiversX smart contract.

Modelling conventions:
* `ManagedAddress` is modelled as `Nat` (addresses are only compared for
  equality).
* `BigUint` (arbitrary-precision unsigned) is modelled as `Nat`.
* `TokenIdentifier` is an inductive with a distinguished `egld` constructor;
  `TokenIdentifier.is_egld` mirrors the source predicate.
* Contract storage (`offers_count`, `offers_with_id`, `offers_to`,
  `offers_from`) is an explicit `State` record; the mappers are association
  lists.  A `SingleValueMapper<ManagedVec<u64>>.get()` on an absent key
  top-decodes the empty byte string, which yields the empty vector, so the
  party-index reads default to `[]`.  A `SingleValueMapper<Offer>.get()` on an
  absent key attempts to top-decode the empty byte string into a struct with
  fixed-width fields, which fails and aborts the invocation; this is modelled
  by returning an error on a missing offer id.
* An endpoint is a pure function `State → ... → Except String (result × State
  × List Payment)`: `Except.error msg` models `require!`-style invocation
  abort (the whole transaction reverts, so no state or transfer survives),
  and the `List Payment` records the outgoing ledger transfers issued by a
  successful invocation.
* `u64` arithmetic uses `Nat` with an explicit bound check: the counter
  increment `&id + 1` aborts when it would exceed `u64::MAX` (arithmetic
  overflow is an error condition in Rust, and a contract panic aborts the
  transaction).
-/

deriving instance DecidableEq for Except

namespace Middleman

/-- Mirrors the Rust `Status` enum. -/
inductive Status where
  | Submitted : Status
  | Completed : Status
  | Deleted : Status
deriving DecidableEq

/-- Addresses, modelled by their identity only. -/
abbrev Addr : Type := Nat

/-- Mirrors the Rust `TokenIdentifier` managed type: either the native EGLD
settlement asset or some other token (identified here by a number). -/
inductive TokenIdentifier where
  | egld : TokenIdentifier
  | token : Nat → TokenIdentifier
deriving DecidableEq

/-- Mirrors `TokenIdentifier::is_egld`. -/
def TokenIdentifier.is_egld : TokenIdentifier → Bool
  | .egld => true
  | .token _ => false

/-- Mirrors the Rust `Offer` struct. -/
structure Offer where
  id : Nat
  spender : Addr
  nft_holder : Addr
  amount : Nat
  token_id : TokenIdentifier
  nonce : Nat
  status : Status
deriving DecidableEq

/-- An outgoing ledger transfer issued by the contract:
`direct_egld` or `direct` in the source. -/
inductive Payment where
  | egld : Addr → Nat → Payment
  | asset : Addr → TokenIdentifier → Nat → Nat → Payment
deriving DecidableEq

/-- Association-list lookup, modelling a keyed storage mapper read. -/
def getA {β : Type} : List (Nat × β) → Nat → Option β
  | [], _ => none
  | (k, v) :: t, i => if k = i then some v else getA t i

/-- Association-list update, modelling a keyed storage mapper write. -/
def setA {β : Type} : List (Nat × β) → Nat → β → List (Nat × β)
  | [], i, v => [(i, v)]
  | (k, w) :: t, i, v => if k = i then (i, v) :: t else (k, w) :: setA t i v

/-- The contract's persistent storage: the four storage mappers of the
source (`offers_count`, `offers_with_id`, `offers_to`, `offers_from`). -/
structure State where
  offers_count : Nat
  offers_with_id : List (Nat × Offer)
  offers_to : List (Nat × List Nat)
  offers_from : List (Nat × List Nat)
deriving DecidableEq

/-- `u64::MAX + 1`. -/
def U64 : Nat := 2 ^ 64

/-- Error message of a failed top-decode of a missing `Offer`. -/
def decodeErr : String := "storage decode error"

/-- The state after `init`: `offers_count().set_if_empty(&1u64)` on fresh
storage leaves the counter at 1 and everything else empty. -/
def initState : State := ⟨1, [], [], []⟩

/-- Mirrors `create_offer` (src/middleman/src/lib.rs lines 49-87).
The caller attaches one unit of `(token_id, nonce)`; the contract allocates
the next id, appends it to both party-index lists, stores the `Submitted`
offer, and sends a 1-unit EGLD notification to the spender. -/
def create_offer (s : State) (caller : Addr) (token_id : TokenIdentifier)
    (nonce : Nat) (spender : Addr) (amount : Nat) :
    Except String (Nat × State × List Payment) :=
  if 0 ≤ amount then
    let id := s.offers_count
    if id + 1 < U64 then
      let fromList := (getA s.offers_from caller).getD []
      let toList := (getA s.offers_to spender).getD []
      let offer : Offer :=
        ⟨id, spender, caller, amount, token_id, nonce, Status.Submitted⟩
      let s1 : State :=
        ⟨id + 1,
         setA s.offers_with_id id offer,
         setA s.offers_to spender (toList ++ [id]),
         setA s.offers_from caller (fromList ++ [id])⟩
      Except.ok (id, s1, [Payment.egld spender 1])
    else Except.error "u64 overflow"
  else Except.error "The amount specified is below zero"

/-- Mirrors `delete_offer` (src/middleman/src/lib.rs lines 89-110).
Only the offer's creator (`nft_holder`) may delete, only while `Submitted`;
the escrowed NFT (quantity 1) goes back to the caller and the status becomes
`Deleted`. -/
def delete_offer (s : State) (caller : Addr) (id : Nat) :
    Except String (Nat × State × List Payment) :=
  match getA s.offers_with_id id with
  | none => Except.error decodeErr
  | some offer =>
    if offer.nft_holder = caller then
      if offer.status = Status.Submitted then
        let offer1 : Offer := { offer with status := Status.Deleted }
        Except.ok (id,
          ⟨s.offers_count, setA s.offers_with_id id offer1,
           s.offers_to, s.offers_from⟩,
          [Payment.asset caller offer.token_id offer.nonce 1])
      else Except.error "Offer deleted or completed"
    else Except.error "You are not the creator of this offer"

/-- Mirrors `accept_offer` (src/middleman/src/lib.rs lines 112-151).
Only the designated spender may accept, only with the native EGLD asset,
only while `Submitted`, and only with the exact stored amount; a 2% fee is
retained (`payout = amount * 98 / 100`, truncating), the payout goes to the
holder, the NFT to the caller, and the status becomes `Completed`. -/
def accept_offer (s : State) (caller : Addr) (token_id : TokenIdentifier)
    (egld_amount : Nat) (id : Nat) :
    Except String (Nat × State × List Payment) :=
  match getA s.offers_with_id id with
  | none => Except.error decodeErr
  | some offer =>
    if offer.spender = caller then
      if token_id.is_egld then
        if offer.status = Status.Submitted then
          if egld_amount = offer.amount then
            let big_amount := egld_amount * 98
            let real_amount := big_amount / 100
            let offer1 : Offer := { offer with status := Status.Completed }
            Except.ok (id,
              ⟨s.offers_count, setA s.offers_with_id id offer1,
               s.offers_to, s.offers_from⟩,
              [Payment.egld offer.nft_holder real_amount,
               Payment.asset caller offer.token_id offer.nonce 1])
          else Except.error "Incorrect egld amount"
        else Except.error "Offer deleted or completed"
      else Except.error "Only pay with egld"
    else Except.error "You are not the spender designated for this offer"

/-- Mirrors the loop body accumulation of `get_nb_submitted_for`:
walk the id list, abort on a missing offer, count `Submitted` ones. -/
def countSubmitted (s : State) : Nat → List Nat → Except String Nat
  | c, [] => Except.ok c
  | c, i :: rest =>
    match getA s.offers_with_id i with
    | none => Except.error decodeErr
    | some o =>
      countSubmitted s (if o.status = Status.Submitted then c + 1 else c) rest

/-- Mirrors `get_nb_submitted_for` (src/middleman/src/lib.rs lines 155-169):
the `offers_to` list of the address, with the `offers_from` list appended
(`append_vec`), scanned counting offers whose status is `Submitted`. -/
def get_nb_submitted_for (s : State) (caller : Addr) : Except String Nat :=
  countSubmitted s 0
    ((getA s.offers_to caller).getD [] ++ (getA s.offers_from caller).getD [])

/-- Mirrors the loop of `get_last_completed_offers`: for each id, if fewer
than `limit` results are gathered, read the offer (aborting if missing) and
append the id when `Completed`; otherwise skip without reading. -/
def scanCompleted (s : State) (limit : Nat) :
    List Nat → List Nat → Except String (List Nat)
  | acc, [] => Except.ok acc
  | acc, i :: rest =>
    if acc.length < limit then
      match getA s.offers_with_id i with
      | none => Except.error decodeErr
      | some o =>
        scanCompleted s limit
          (if o.status = Status.Completed then acc ++ [i] else acc) rest
    else scanCompleted s limit acc rest

/-- Mirrors `get_last_completed_offers` (src/middleman/src/lib.rs lines
196-213): scan ids `(1..offers_count).rev()`, i.e. from `offers_count - 1`
down to `1`, collecting `Completed` ids until the limit is reached. -/
def get_last_completed_offers (s : State) (limit : Nat) :
    Except String (List Nat) :=
  scanCompleted s limit [] (List.range' 1 (s.offers_count - 1)).reverse

/-- An external invocation of one of the contract's mutating endpoints
(`withdraw_balance` touches only the ledger balance, not this state). -/
inductive Action where
  | create : Addr → TokenIdentifier → Nat → Addr → Nat → Action
  | delete : Addr → Nat → Action
  | accept : Addr → TokenIdentifier → Nat → Nat → Action
  | withdraw : Addr → Action

/-- Transaction semantics: a successful invocation commits its new state, a
failed one reverts completely. -/
def applyTx {α : Type} (s : State) :
    Except String (α × State × List Payment) → State
  | Except.ok (_, s1, _) => s1
  | Except.error _ => s

/-- One serialized invocation step. -/
def exec (s : State) : Action → State
  | .create c t n sp a => applyTx s (create_offer s c t n sp a)
  | .delete c i => applyTx s (delete_offer s c i)
  | .accept c t a i => applyTx s (accept_offer s c t a i)
  | .withdraw _ => s

/-- Run a sequence of invocations from the bootstrapped state. -/
def run (acts : List Action) : State := acts.foldl exec initState

/-- A state is reachable when some invocation sequence from the bootstrapped
state produces it. -/
def Reachable (s : State) : Prop := ∃ acts : List Action, run acts = s

/-- `true` exactly on aborted invocations. -/
def isErr {ε α : Type} : Except ε α → Bool
  | Except.ok _ => false
  | Except.error _ => true

/-- The id returned by an action when it is a successful `create_offer`. -/
def createResult (s : State) : Action → Option Nat
  | .create c t n sp a =>
    match create_offer s c t n sp a with
    | Except.ok (id, _, _) => some id
    | Except.error _ => none
  | _ => none

/-- The ids returned by the successful `create_offer` calls of a run, in
call order. -/
def createdIds : State → List Action → List Nat
  | _, [] => []
  | s, a :: rest =>
    (match createResult s a with
     | some id => [id]
     | none => []) ++ createdIds (exec s a) rest

/-- `true` when the stored offer at `i` exists and is `Submitted`. -/
def isSubmittedIn (s : State) (i : Nat) : Bool :=
  match getA s.offers_with_id i with
  | some o => decide (o.status = Status.Submitted)
  | none => false

/-- `true` when the stored offer at `i` exists and is `Completed`. -/
def isCompletedIn (s : State) (i : Nat) : Bool :=
  match getA s.offers_with_id i with
  | some o => decide (o.status = Status.Completed)
  | none => false

/-- Modelled from the spec's words for `count_submitted_for` ("unions the
address's holder-role and spender-role id lists and counts entries whose
current status is Submitted"): a set union, each id counted at most once. -/
def specCountSubmittedUnion (s : State) (a : Addr) : Nat :=
  (((getA s.offers_to a).getD []) ++
     ((getA s.offers_from a).getD [])).dedup.countP (isSubmittedIn s)

/-- The key of every stored offer is below the counter. -/
def StoreBound (s : State) : Prop :=
  ∀ i o, getA s.offers_with_id i = some o → i < s.offers_count

/-! ### Helper lemmas -/

theorem getA_setA {β : Type} (m : List (Nat × β)) (k i : Nat) (v : β) :
    getA (setA m k v) i = if k = i then some v else getA m i := by
  induction m with
  | nil => simp [setA, getA]
  | cons p t ih =>
    obtain ⟨a, w⟩ := p
    by_cases hak : a = k
    · subst hak
      by_cases hai : a = i
      · subst hai
        simp [setA, getA]
      · simp [setA, getA, hai]
    · by_cases hai : a = i
      · subst hai
        have hki : ¬ k = a := fun h => hak h.symm
        simp [setA, getA, hak, hki]
      · simp [setA, getA, hak, hai, ih]

theorem applyTx_delete_count (s : State) (c : Addr) (i : Nat) :
    (applyTx s (delete_offer s c i)).offers_count = s.offers_count := by
  unfold delete_offer
  cases hget : getA s.offers_with_id i with
  | none => rfl
  | some o =>
    by_cases h1 : o.nft_holder = c
    · by_cases h2 : o.status = Status.Submitted
      · simp [h1, h2, applyTx]
      · simp [h1, h2, applyTx]
    · simp [h1, applyTx]

theorem applyTx_accept_count (s : State) (c : Addr) (t : TokenIdentifier)
    (a i : Nat) :
    (applyTx s (accept_offer s c t a i)).offers_count = s.offers_count := by
  unfold accept_offer
  cases hget : getA s.offers_with_id i with
  | none => rfl
  | some o =>
    by_cases h1 : o.spender = c
    · by_cases h2 : t.is_egld = true
      · by_cases h3 : o.status = Status.Submitted
        · by_cases h4 : a = o.amount
          · simp [h1, h2, h3, h4, applyTx]
          · simp [h1, h2, h3, h4, applyTx]
        · simp [h1, h2, h3, applyTx]
      · simp [h1, h2, applyTx]
    · simp [h1, applyTx]

theorem create_offer_ok (s : State) (c : Addr) (t : TokenIdentifier)
    (n : Nat) (sp : Addr) (a : Nat) (h : s.offers_count + 1 < U64) :
    create_offer s c t n sp a =
      Except.ok (s.offers_count,
        ⟨s.offers_count + 1,
         setA s.offers_with_id s.offers_count
           ⟨s.offers_count, sp, c, a, t, n, Status.Submitted⟩,
         setA s.offers_to sp
           (((getA s.offers_to sp).getD []) ++ [s.offers_count]),
         setA s.offers_from c
           (((getA s.offers_from c).getD []) ++ [s.offers_count])⟩,
        [Payment.egld sp 1]) := by
  unfold create_offer
  simp [Nat.zero_le, h]

theorem create_offer_overflow (s : State) (c : Addr) (t : TokenIdentifier)
    (n : Nat) (sp : Addr) (a : Nat) (h : ¬ s.offers_count + 1 < U64) :
    create_offer s c t n sp a = Except.error "u64 overflow" := by
  unfold create_offer
  simp [Nat.zero_le, h]

theorem delete_offer_eq_ok (s : State) (c : Addr) (id r : Nat) (s1 : State)
    (ps : List Payment) (o : Offer)
    (hlook : getA s.offers_with_id id = some o)
    (h : delete_offer s c id = Except.ok (r, s1, ps)) :
    o.nft_holder = c ∧ o.status = Status.Submitted ∧ r = id ∧
    s1.offers_count = s.offers_count ∧
    s1.offers_with_id =
      setA s.offers_with_id id { o with status := Status.Deleted } ∧
    s1.offers_to = s.offers_to ∧ s1.offers_from = s.offers_from ∧
    ps = [Payment.asset c o.token_id o.nonce 1] := by
  unfold delete_offer at h
  simp only [hlook] at h
  by_cases h1 : o.nft_holder = c
  · by_cases h2 : o.status = Status.Submitted
    · rw [if_pos h1, if_pos h2] at h
      simp only [Except.ok.injEq, Prod.mk.injEq] at h
      obtain ⟨hr, hs, hp⟩ := h
      refine ⟨h1, h2, hr.symm, ?_, ?_, ?_, ?_, hp.symm⟩ <;> rw [← hs]
    · rw [if_pos h1, if_neg h2] at h
      exact absurd h (by simp)
  · rw [if_neg h1] at h
    exact absurd h (by simp)

theorem accept_offer_eq_ok (s : State) (c : Addr) (t : TokenIdentifier)
    (A id r : Nat) (s1 : State) (ps : List Payment) (o : Offer)
    (hlook : getA s.offers_with_id id = some o)
    (h : accept_offer s c t A id = Except.ok (r, s1, ps)) :
    o.spender = c ∧ t.is_egld = true ∧ o.status = Status.Submitted ∧
    A = o.amount ∧ r = id ∧
    s1.offers_count = s.offers_count ∧
    s1.offers_with_id =
      setA s.offers_with_id id { o with status := Status.Completed } ∧
    s1.offers_to = s.offers_to ∧ s1.offers_from = s.offers_from ∧
    ps = [Payment.egld o.nft_holder (A * 98 / 100),
          Payment.asset c o.token_id o.nonce 1] := by
  unfold accept_offer at h
  simp only [hlook] at h
  by_cases h1 : o.spender = c
  · by_cases h2 : t.is_egld = true
    · by_cases h3 : o.status = Status.Submitted
      · by_cases h4 : A = o.amount
        · rw [if_pos h1, if_pos h2, if_pos h3, if_pos h4] at h
          simp only [Except.ok.injEq, Prod.mk.injEq] at h
          obtain ⟨hr, hs, hp⟩ := h
          refine ⟨h1, h2, h3, h4, hr.symm, ?_, ?_, ?_, ?_, hp.symm⟩ <;>
            rw [← hs]
        · rw [if_pos h1, if_pos h2, if_pos h3, if_neg h4] at h
          exact absurd h (by simp)
      · rw [if_pos h1, if_pos h2, if_neg h3] at h
        exact absurd h (by simp)
    · rw [if_pos h1, if_neg h2] at h
      exact absurd h (by simp)
  · rw [if_neg h1] at h
    exact absurd h (by simp)

theorem storeBound_init : StoreBound initState := by
  intro i o hio
  simp [initState, getA] at hio

theorem storeBound_exec (s : State) (a : Action) (hb : StoreBound s) :
    StoreBound (exec s a) := by
  cases a with
  | create c t n sp amt =>
    by_cases h : s.offers_count + 1 < U64
    · intro i o hio
      simp only [exec, create_offer_ok s c t n sp amt h, applyTx] at hio ⊢
      rw [getA_setA] at hio
      by_cases hci : s.offers_count = i
      · omega
      · rw [if_neg hci] at hio
        have := hb i o hio
        omega
    · intro i o hio
      simp only [exec, create_offer_overflow s c t n sp amt h, applyTx] at hio ⊢
      exact hb i o hio
  | delete c id =>
    intro i o hio
    simp only [exec] at hio ⊢
    rw [applyTx_delete_count]
    cases hd : delete_offer s c id with
    | error e =>
      rw [hd] at hio
      exact hb i o hio
    | ok res =>
      obtain ⟨r, s1, ps⟩ := res
      rw [hd] at hio
      simp only [applyTx] at hio
      cases hlook : getA s.offers_with_id id with
      | none =>
        unfold delete_offer at hd
        rw [hlook] at hd
        exact absurd hd (by simp)
      | some o0 =>
        obtain ⟨-, -, -, -, hstore, -⟩ :=
          delete_offer_eq_ok s c id r s1 ps o0 hlook hd
        rw [hstore, getA_setA] at hio
        by_cases hci : id = i
        · subst hci
          exact hb id o0 hlook
        · rw [if_neg hci] at hio
          exact hb i o hio
  | accept c t A id =>
    intro i o hio
    simp only [exec] at hio ⊢
    rw [applyTx_accept_count]
    cases hd : accept_offer s c t A id with
    | error e =>
      rw [hd] at hio
      exact hb i o hio
    | ok res =>
      obtain ⟨r, s1, ps⟩ := res
      rw [hd] at hio
      simp only [applyTx] at hio
      cases hlook : getA s.offers_with_id id with
      | none =>
        unfold accept_offer at hd
        rw [hlook] at hd
        exact absurd hd (by simp)
      | some o0 =>
        obtain ⟨-, -, -, -, -, -, hstore, -⟩ :=
          accept_offer_eq_ok s c t A id r s1 ps o0 hlook hd
        rw [hstore, getA_setA] at hio
        by_cases hci : id = i
        · subst hci
          exact hb id o0 hlook
        · rw [if_neg hci] at hio
          exact hb i o hio
  | withdraw c => exact hb

theorem storeBound_foldl (acts : List Action) :
    ∀ s : State, StoreBound s → StoreBound (acts.foldl exec s) := by
  induction acts with
  | nil => intro s hs; exact hs
  | cons a rest ih =>
    intro s hs
    rw [List.foldl_cons]
    exact ih (exec s a) (storeBound_exec s a hs)

theorem reachable_storeBound (s : State) (hs : Reachable s) : StoreBound s := by
  obtain ⟨acts, hacts⟩ := hs
  rw [← hacts]
  exact storeBound_foldl acts initState storeBound_init

theorem range'_cons (a n : Nat) :
    List.range' a (n + 1) = a :: List.range' (a + 1) n := rfl

theorem createdIds_range (acts : List Action) :
    ∀ s : State,
      createdIds s acts =
        List.range' s.offers_count (createdIds s acts).length ∧
      (acts.foldl exec s).offers_count =
        s.offers_count + (createdIds s acts).length := by
  induction acts with
  | nil =>
    intro s
    simp [createdIds]
  | cons a rest ih =>
    intro s
    cases a with
    | create c t n sp amt =>
      by_cases h : s.offers_count + 1 < U64
      · have hco := create_offer_ok s c t n sp amt h
        have h1 : createResult s (Action.create c t n sp amt) =
            some s.offers_count := by
          simp [createResult, hco]
        have h2 : (exec s (Action.create c t n sp amt)).offers_count =
            s.offers_count + 1 := by
          simp [exec, applyTx, hco]
        obtain ⟨ihr, ihc⟩ := ih (exec s (Action.create c t n sp amt))
        rw [h2] at ihr
        have hcons : createdIds s (Action.create c t n sp amt :: rest) =
            s.offers_count ::
              createdIds (exec s (Action.create c t n sp amt)) rest := by
          simp [createdIds, h1]
        constructor
        · rw [hcons]
          simp only [List.length_cons]
          rw [range'_cons, ihr]
          simp [List.length_range']
        · rw [List.foldl_cons, ihc, hcons, h2]
          simp only [List.length_cons]
          omega
      · have hco := create_offer_overflow s c t n sp amt h
        have h1 : createResult s (Action.create c t n sp amt) = none := by
          simp [createResult, hco]
        have h2 : exec s (Action.create c t n sp amt) = s := by
          simp [exec, applyTx, hco]
        have hcons : createdIds s (Action.create c t n sp amt :: rest) =
            createdIds s rest := by
          simp [createdIds, h1, h2]
        obtain ⟨ihr, ihc⟩ := ih s
        constructor
        · rw [hcons, ihr]
          simp [List.length_range']
        · rw [List.foldl_cons, h2, hcons]
          exact ihc
    | delete c i =>
      have h2 : (exec s (Action.delete c i)).offers_count = s.offers_count :=
        applyTx_delete_count s c i
      have hcons : createdIds s (Action.delete c i :: rest) =
          createdIds (exec s (Action.delete c i)) rest := by
        simp [createdIds, createResult]
      obtain ⟨ihr, ihc⟩ := ih (exec s (Action.delete c i))
      rw [h2] at ihr
      constructor
      · rw [hcons, ihr]
        simp [List.length_range']
      · rw [List.foldl_cons, ihc, hcons, h2]
    | accept c t A i =>
      have h2 : (exec s (Action.accept c t A i)).offers_count =
          s.offers_count := applyTx_accept_count s c t A i
      have hcons : createdIds s (Action.accept c t A i :: rest) =
          createdIds (exec s (Action.accept c t A i)) rest := by
        simp [createdIds, createResult]
      obtain ⟨ihr, ihc⟩ := ih (exec s (Action.accept c t A i))
      rw [h2] at ihr
      constructor
      · rw [hcons, ihr]
        simp [List.length_range']
      · rw [List.foldl_cons, ihc, hcons, h2]
    | withdraw c =>
      have h2 : exec s (Action.withdraw c) = s := rfl
      have hcons : createdIds s (Action.withdraw c :: rest) =
          createdIds s rest := by
        simp [createdIds, createResult, h2]
      obtain ⟨ihr, ihc⟩ := ih s
      constructor
      · rw [hcons, ihr]
        simp [List.length_range']
      · rw [List.foldl_cons, h2, hcons]
        exact ihc

theorem countSubmitted_ok (s : State) (l : List Nat) :
    ∀ c : Nat,
      (∀ i ∈ l, (getA s.offers_with_id i).isSome = true) →
      countSubmitted s c l = Except.ok (c + l.countP (isSubmittedIn s)) := by
  induction l with
  | nil =>
    intro c _
    simp [countSubmitted]
  | cons i rest ih =>
    intro c hpres
    have hi := hpres i (by simp)
    have hrest : ∀ j ∈ rest, (getA s.offers_with_id j).isSome = true :=
      fun j hj => hpres j (by simp [hj])
    cases hlook : getA s.offers_with_id i with
    | none =>
      rw [hlook] at hi
      simp at hi
    | some o =>
      unfold countSubmitted
      simp only [hlook]
      by_cases hst : o.status = Status.Submitted
      · rw [if_pos hst, ih (c + 1) hrest]
        have hcnt : (i :: rest).countP (isSubmittedIn s) =
            rest.countP (isSubmittedIn s) + 1 := by
          simp [List.countP_cons, isSubmittedIn, hlook, hst]
        rw [hcnt]
        exact congrArg Except.ok (by omega)
      · rw [if_neg hst, ih c hrest]
        have hcnt : (i :: rest).countP (isSubmittedIn s) =
            rest.countP (isSubmittedIn s) := by
          simp [List.countP_cons, isSubmittedIn, hlook, hst]
        rw [hcnt]
  
theorem scanCompleted_ok (s : State) (limit : Nat) (l : List Nat) :
    ∀ acc : List Nat,
      (∀ i ∈ l, (getA s.offers_with_id i).isSome = true) →
      scanCompleted s limit acc l =
        Except.ok
          (acc ++ (l.filter (isCompletedIn s)).take (limit - acc.length)) := by
  induction l with
  | nil =>
    intro acc _
    simp [scanCompleted]
  | cons i rest ih =>
    intro acc hpres
    have hi := hpres i (by simp)
    have hrest : ∀ j ∈ rest, (getA s.offers_with_id j).isSome = true :=
      fun j hj => hpres j (by simp [hj])
    unfold scanCompleted
    by_cases hlen : acc.length < limit
    · rw [if_pos hlen]
      cases hlook : getA s.offers_with_id i with
      | none =>
        rw [hlook] at hi
        simp at hi
      | some o =>
        simp only [hlook]
        by_cases hst : o.status = Status.Completed
        · rw [if_pos hst, ih (acc ++ [i]) hrest]
          have hfil : (i :: rest).filter (isCompletedIn s) =
              i :: rest.filter (isCompletedIn s) := by
            simp [List.filter_cons, isCompletedIn, hlook, hst]
          rw [hfil]
          have htake : limit - acc.length = (limit - (acc.length + 1)) + 1 := by
            omega
          rw [htake, List.take_succ_cons]
          simp [List.append_assoc]
        · rw [if_neg hst, ih acc hrest]
          have hfil : (i :: rest).filter (isCompletedIn s) =
              rest.filter (isCompletedIn s) := by
            simp [List.filter_cons, isCompletedIn, hlook, hst]
          rw [hfil]
    · rw [if_neg hlen, ih acc hrest]
      have h0 : limit - acc.length = 0 := by omega
      rw [h0]
      simp

/-! ### Concrete states used by the witnesses -/

/-- The offer created by address 7 for spender 8, amount 100,
escrowing token 3 at nonce 5. -/
def offerC : Offer :=
  ⟨1, 8, 7, 100, TokenIdentifier.token 3, 5, Status.Submitted⟩

/-- State after one `create_offer` (holder 7, spender 8, amount 100). -/
def sCreated : State :=
  run [Action.create 7 (TokenIdentifier.token 3) 5 8 100]

/-- State after creating offer 1 and deleting it. -/
def sDeleted : State :=
  run [Action.create 7 (TokenIdentifier.token 3) 5 8 100, Action.delete 7 1]

/-- State after creating offer 1 and accepting it with 100 EGLD. -/
def sAccepted : State :=
  run [Action.create 7 (TokenIdentifier.token 3) 5 8 100,
       Action.accept 8 TokenIdentifier.egld 100 1]

/-- State after one `create_offer` with amount 99. -/
def sCreated99 : State :=
  run [Action.create 7 (TokenIdentifier.token 3) 5 8 99]

/-- State after creating the amount-99 offer and accepting it. -/
def sAccepted99 : State :=
  run [Action.create 7 (TokenIdentifier.token 3) 5 8 99,
       Action.accept 8 TokenIdentifier.egld 99 1]

/-- State where address 7 created an offer naming itself as spender: the
offer id sits in both of 7's party-index lists. -/
def sSelf : State :=
  run [Action.create 7 (TokenIdentifier.token 3) 0 7 5]

/-- State with seven offers created and offers 3, 5 and 7 accepted. -/
def sSeven : State :=
  run [Action.create 7 (TokenIdentifier.token 3) 1 8 10,
       Action.create 7 (TokenIdentifier.token 3) 2 8 10,
       Action.create 7 (TokenIdentifier.token 3) 3 8 10,
       Action.create 7 (TokenIdentifier.token 3) 4 8 10,
       Action.create 7 (TokenIdentifier.token 3) 5 8 10,
       Action.create 7 (TokenIdentifier.token 3) 6 8 10,
       Action.create 7 (TokenIdentifier.token 3) 7 8 10,
       Action.accept 8 TokenIdentifier.egld 10 3,
       Action.accept 8 TokenIdentifier.egld 10 5,
       Action.accept 8 TokenIdentifier.egld 10 7]

/-! ### Claim theorems -/

/-- C1: for every reachable state and every stored offer whose status is
`Completed` or `Deleted`, every subsequent `delete_offer` or `accept_offer`
call on that id aborts, and no action ever changes that offer again (so
`Submitted → Completed` and `Submitted → Deleted` are the only transitions
and both are terminal). -/
theorem terminal_status_closed (s : State) (hs : Reachable s) (id : Nat)
    (o : Offer) (hlook : getA s.offers_with_id id = some o)
    (hterm : o.status = Status.Completed ∨ o.status = Status.Deleted) :
    (∀ c : Addr, isErr (delete_offer s c id) = true) ∧
    (∀ (c : Addr) (t : TokenIdentifier) (A : Nat),
       isErr (accept_offer s c t A id) = true) ∧
    (∀ a : Action, getA (exec s a).offers_with_id id = some o) := by
  have hstat : ¬ o.status = Status.Submitted := by
    cases hterm with
    | inl h => rw [h]; intro hc; cases hc
    | inr h => rw [h]; intro hc; cases hc
  have hdel : ∀ c : Addr, isErr (delete_offer s c id) = true := by
    intro c
    unfold delete_offer
    simp only [hlook]
    by_cases h1 : o.nft_holder = c
    · rw [if_pos h1, if_neg hstat]
      rfl
    · rw [if_neg h1]
      rfl
  have hacc : ∀ (c : Addr) (t : TokenIdentifier) (A : Nat),
      isErr (accept_offer s c t A id) = true := by
    intro c t A
    unfold accept_offer
    simp only [hlook]
    by_cases h1 : o.spender = c
    · by_cases h2 : t.is_egld = true
      · rw [if_pos h1, if_pos h2, if_neg hstat]
        rfl
      · rw [if_pos h1, if_neg h2]
        rfl
    · rw [if_neg h1]
      rfl
  refine ⟨hdel, hacc, ?_⟩
  intro a
  have hbound := reachable_storeBound s hs id o hlook
  cases a with
  | create c t n sp amt =>
    by_cases hov : s.offers_count + 1 < U64
    · simp only [exec, create_offer_ok s c t n sp amt hov, applyTx]
      rw [getA_setA, if_neg (by omega : ¬ s.offers_count = id)]
      exact hlook
    · simp only [exec, create_offer_overflow s c t n sp amt hov, applyTx]
      exact hlook
  | delete c i =>
    simp only [exec]
    cases hd : delete_offer s c i with
    | error e =>
      simp only [applyTx]
      exact hlook
    | ok res =>
      obtain ⟨r, s1, ps⟩ := res
      by_cases hii : i = id
      · subst hii
        have hx := hdel c
        rw [hd] at hx
        exact absurd hx (by simp [isErr])
      · cases hlooki : getA s.offers_with_id i with
        | none =>
          unfold delete_offer at hd
          simp only [hlooki] at hd
          exact absurd hd (by simp)
        | some o0 =>
          obtain ⟨-, -, -, -, hstore, -, -, -⟩ :=
            delete_offer_eq_ok s c i r s1 ps o0 hlooki hd
          simp only [applyTx]
          rw [hstore, getA_setA, if_neg hii]
          exact hlook
  | accept c t A i =>
    simp only [exec]
    cases hd : accept_offer s c t A i with
    | error e =>
      simp only [applyTx]
      exact hlook
    | ok res =>
      obtain ⟨r, s1, ps⟩ := res
      by_cases hii : i = id
      · subst hii
        have hx := hacc c t A
        rw [hd] at hx
        exact absurd hx (by simp [isErr])
      · cases hlooki : getA s.offers_with_id i with
        | none =>
          unfold accept_offer at hd
          simp only [hlooki] at hd
          exact absurd hd (by simp)
        | some o0 =>
          obtain ⟨-, -, -, -, -, -, hstore, -, -, -⟩ :=
            accept_offer_eq_ok s c t A i r s1 ps o0 hlooki hd
          simp only [applyTx]
          rw [hstore, getA_setA, if_neg hii]
          exact hlook
  | withdraw c =>
    exact hlook

/-- Witness for C1: in the concrete reachable state where offer 1 has been
deleted, both endpoints abort on id 1 and a further delete leaves the stored
record untouched. -/
theorem terminal_status_closed_witness :
    isErr (delete_offer sDeleted 7 1) = true ∧
    isErr (accept_offer sDeleted 8 TokenIdentifier.egld 100 1) = true ∧
    getA (exec sDeleted (Action.delete 7 1)).offers_with_id 1 =
      some { offerC with status := Status.Deleted } := by
  have h := terminal_status_closed sDeleted
    ⟨[Action.create 7 (TokenIdentifier.token 3) 5 8 100, Action.delete 7 1],
     rfl⟩
    1 { offerC with status := Status.Deleted } (by decide) (by decide)
  exact ⟨h.1 7, h.2.1 8 TokenIdentifier.egld 100, h.2.2 (Action.delete 7 1)⟩

/-- C2: `delete_offer` by a non-holder aborts with the unauthorized message,
`delete_offer` on a non-`Submitted` offer aborts, and `accept_offer` by a
non-spender aborts with the unauthorized message; in each case the whole
state (counter, offer store, party index) is left unchanged. -/
theorem unauthorized_calls_abort (s : State) (c : Addr) (id : Nat) (o : Offer)
    (hlook : getA s.offers_with_id id = some o) :
    (o.nft_holder ≠ c →
       delete_offer s c id =
         Except.error "You are not the creator of this offer" ∧
       applyTx s (delete_offer s c id) = s) ∧
    (o.status ≠ Status.Submitted →
       isErr (delete_offer s c id) = true ∧
       applyTx s (delete_offer s c id) = s) ∧
    (∀ (t : TokenIdentifier) (A : Nat),
       o.spender ≠ c →
       accept_offer s c t A id =
         Except.error "You are not the spender designated for this offer" ∧
       applyTx s (accept_offer s c t A id) = s) := by
  refine ⟨?_, ?_, ?_⟩
  · intro h1
    have herr : delete_offer s c id =
        Except.error "You are not the creator of this offer" := by
      unfold delete_offer
      simp only [hlook]
      rw [if_neg h1]
    exact ⟨herr, by rw [herr]; rfl⟩
  · intro h2
    by_cases h1 : o.nft_holder = c
    · have herr : delete_offer s c id =
          Except.error "Offer deleted or completed" := by
        unfold delete_offer
        simp only [hlook]
        rw [if_pos h1, if_neg h2]
      rw [herr]
      exact ⟨rfl, rfl⟩
    · have herr : delete_offer s c id =
          Except.error "You are not the creator of this offer" := by
        unfold delete_offer
        simp only [hlook]
        rw [if_neg h1]
      rw [herr]
      exact ⟨rfl, rfl⟩
  · intro t A h1
    have herr : accept_offer s c t A id =
        Except.error "You are not the spender designated for this offer" := by
      unfold accept_offer
      simp only [hlook]
      rw [if_neg h1]
    exact ⟨herr, by rw [herr]; rfl⟩

/-- Witness for C2: the non-holder 8 cannot delete offer 1, a second delete
of the already-deleted offer 1 aborts, the non-spender 7 cannot accept, and
the state is unchanged each time. -/
theorem unauthorized_calls_abort_witness :
    (delete_offer sCreated 8 1 =
       Except.error "You are not the creator of this offer" ∧
     applyTx sCreated (delete_offer sCreated 8 1) = sCreated) ∧
    (isErr (delete_offer sDeleted 7 1) = true ∧
     applyTx sDeleted (delete_offer sDeleted 7 1) = sDeleted) ∧
    (accept_offer sCreated 7 TokenIdentifier.egld 100 1 =
       Except.error "You are not the spender designated for this offer" ∧
     applyTx sCreated (accept_offer sCreated 7 TokenIdentifier.egld 100 1) =
       sCreated) :=
  ⟨(unauthorized_calls_abort sCreated 8 1 offerC (by decide)).1 (by decide),
   (unauthorized_calls_abort sDeleted 7 1
      { offerC with status := Status.Deleted } (by decide)).2.1 (by decide),
   (unauthorized_calls_abort sCreated 7 1 offerC (by decide)).2.2
      TokenIdentifier.egld 100 (by decide)⟩

/-- C3: every successful `accept_offer` with attached amount `A` pays the
holder exactly `floor(A * 98 / 100)` of the native asset (truncating
integer arithmetic, witnessed by the floor characterization), sends the NFT
to the caller, and the remainder `A - floor(A * 98 / 100)` of the attached
amount stays with the contract. -/
theorem accept_offer_fee (s : State) (c : Addr) (t : TokenIdentifier)
    (A id r : Nat) (s1 : State) (ps : List Payment) (o : Offer)
    (hlook : getA s.offers_with_id id = some o)
    (h : accept_offer s c t A id = Except.ok (r, s1, ps)) :
    ps = [Payment.egld o.nft_holder (A * 98 / 100),
          Payment.asset c o.token_id o.nonce 1] ∧
    A = o.amount ∧
    100 * (A * 98 / 100) ≤ A * 98 ∧
    A * 98 < 100 * (A * 98 / 100 + 1) ∧
    A * 98 / 100 ≤ A ∧
    A * 98 / 100 + (A - A * 98 / 100) = A := by
  obtain ⟨-, -, -, h4, -, -, -, -, -, hps⟩ :=
    accept_offer_eq_ok s c t A id r s1 ps o hlook h
  refine ⟨hps, h4, ?_, ?_, ?_, ?_⟩ <;> omega

/-- Witness for C3: accepting the amount-100 offer pays the holder 98 and
accepting the amount-99 offer pays the holder 97. -/
theorem accept_offer_fee_witness :
    ([Payment.egld 7 98, Payment.asset 8 (TokenIdentifier.token 3) 5 1] =
       [Payment.egld offerC.nft_holder (100 * 98 / 100),
        Payment.asset 8 offerC.token_id offerC.nonce 1] ∧
     (100 : Nat) = offerC.amount ∧
     100 * (100 * 98 / 100) ≤ 100 * 98 ∧
     100 * 98 < 100 * (100 * 98 / 100 + 1) ∧
     100 * 98 / 100 ≤ 100 ∧
     100 * 98 / 100 + (100 - 100 * 98 / 100) = 100) ∧
    100 * 98 / 100 = 98 ∧ 99 * 98 / 100 = 97 ∧
    (accept_offer sCreated99 8 TokenIdentifier.egld 99 1).map
      (fun x => x.2.2) =
      Except.ok [Payment.egld 7 97,
                 Payment.asset 8 (TokenIdentifier.token 3) 5 1] :=
  ⟨accept_offer_fee sCreated 8 TokenIdentifier.egld 100 1 1 sAccepted
     [Payment.egld 7 98, Payment.asset 8 (TokenIdentifier.token 3) 5 1]
     offerC (by decide) (by decide),
   by decide, by decide, by decide⟩

/-- C4: `accept_offer` succeeds only when the attached token is the native
EGLD asset and the attached amount exactly equals the stored amount; a
non-native token aborts, and any amount different from the stored one
aborts. -/
theorem accept_offer_payment_precondition (s : State) (c : Addr)
    (t : TokenIdentifier) (A id : Nat) (o : Offer)
    (hlook : getA s.offers_with_id id = some o) :
    (∀ (r : Nat) (s1 : State) (ps : List Payment),
       accept_offer s c t A id = Except.ok (r, s1, ps) →
       t.is_egld = true ∧ A = o.amount) ∧
    (t.is_egld = false → isErr (accept_offer s c t A id) = true) ∧
    (A ≠ o.amount → isErr (accept_offer s c t A id) = true) := by
  refine ⟨?_, ?_, ?_⟩
  · intro r s1 ps h
    obtain ⟨-, h2, -, h4, -⟩ := accept_offer_eq_ok s c t A id r s1 ps o hlook h
    exact ⟨h2, h4⟩
  · intro hng
    have hng2 : ¬ t.is_egld = true := by rw [hng]; intro hc; cases hc
    unfold accept_offer
    simp only [hlook]
    by_cases h1 : o.spender = c
    · rw [if_pos h1, if_neg hng2]
      rfl
    · rw [if_neg h1]
      rfl
  · intro hne
    unfold accept_offer
    simp only [hlook]
    by_cases h1 : o.spender = c
    · by_cases h2 : t.is_egld = true
      · by_cases h3 : o.status = Status.Submitted
        · rw [if_pos h1, if_pos h2, if_pos h3, if_neg hne]
          rfl
        · rw [if_pos h1, if_pos h2, if_neg h3]
          rfl
      · rw [if_pos h1, if_neg h2]
        rfl
    · rw [if_neg h1]
      rfl

/-- Witness for C4: the successful acceptance of offer 1 used EGLD and the
exact amount; a non-EGLD token aborts and a wrong amount aborts. -/
theorem accept_offer_payment_precondition_witness :
    (TokenIdentifier.egld.is_egld = true ∧ (100 : Nat) = offerC.amount) ∧
    isErr (accept_offer sCreated 8 (TokenIdentifier.token 9) 100 1) = true ∧
    isErr (accept_offer sCreated 8 TokenIdentifier.egld 55 1) = true :=
  ⟨(accept_offer_payment_precondition sCreated 8 TokenIdentifier.egld 100 1
      offerC (by decide)).1 1 sAccepted
      [Payment.egld 7 98, Payment.asset 8 (TokenIdentifier.token 3) 5 1]
      (by decide),
   (accept_offer_payment_precondition sCreated 8 (TokenIdentifier.token 9)
      100 1 offerC (by decide)).2.1 (by decide),
   (accept_offer_payment_precondition sCreated 8 TokenIdentifier.egld 55 1
      offerC (by decide)).2.2 (by decide)⟩

/-- C5: from the bootstrapped state, the ids returned by the successful
`create_offer` calls of any invocation sequence are exactly `1, 2, 3, ...`
(strictly increasing by exactly 1 starting at 1), the counter always equals
one more than the number of successful creations (the next id to be
issued), no operation ever decreases the counter, and a successful creation
returns the current counter and bumps it by exactly 1. -/
theorem create_offer_ids_monotonic :
    (∀ acts : List Action,
       createdIds initState acts =
         List.range' 1 (createdIds initState acts).length ∧
       (run acts).offers_count = 1 + (createdIds initState acts).length) ∧
    (∀ (s : State) (a : Action),
       s.offers_count ≤ (exec s a).offers_count) ∧
    (∀ (s : State) (c : Addr) (t : TokenIdentifier) (n : Nat) (sp : Addr)
       (amt id : Nat) (s1 : State) (ps : List Payment),
       create_offer s c t n sp amt = Except.ok (id, s1, ps) →
       id = s.offers_count ∧ s1.offers_count = s.offers_count + 1) := by
  refine ⟨?_, ?_, ?_⟩
  · intro acts
    exact createdIds_range acts initState
  · intro s a
    cases a with
    | create c t n sp amt =>
      by_cases hov : s.offers_count + 1 < U64
      · simp only [exec, create_offer_ok s c t n sp amt hov, applyTx]
        omega
      · simp only [exec, create_offer_overflow s c t n sp amt hov, applyTx]
        exact Nat.le_refl _
    | delete c i =>
      simp only [exec]
      rw [applyTx_delete_count]
    | accept c t A i =>
      simp only [exec]
      rw [applyTx_accept_count]
    | withdraw c =>
      exact Nat.le_refl _
  · intro s c t n sp amt id s1 ps h
    by_cases hov : s.offers_count + 1 < U64
    · rw [create_offer_ok s c t n sp amt hov] at h
      simp only [Except.ok.injEq, Prod.mk.injEq] at h
      obtain ⟨hid, hs1, -⟩ := h
      exact ⟨hid.symm, by rw [← hs1]⟩
    · rw [create_offer_overflow s c t n sp amt hov] at h
      exact absurd h (by simp)

/-- Witness for C5: the first creation from the bootstrapped state returns
id 1 (the counter's value) and leaves the counter at 2. -/
theorem create_offer_ids_monotonic_witness :
    (1 : Nat) = initState.offers_count ∧
    sCreated.offers_count = initState.offers_count + 1 :=
  create_offer_ids_monotonic.2.2 initState 7 (TokenIdentifier.token 3) 5 8
    100 1 sCreated [Payment.egld 8 1] (by decide)

/-- C6 counterexample: when address 7 creates an offer naming itself as the
spender, offer 1 appears in both of 7's party-index lists; the code counts
it twice (`get_nb_submitted_for` returns 2), while the claimed
each-offer-at-most-once union count is 1. -/
theorem get_nb_submitted_for_counterexample :
    get_nb_submitted_for sSelf 7 = Except.ok 2 ∧
    specCountSubmittedUnion sSelf 7 = 1 := by
  constructor
  · decide
  · decide

/-- C6 amended: `get_nb_submitted_for` counts the `Submitted` entries of
the concatenation of the address's spender-role (`offers_to`) and
holder-role (`offers_from`) id lists, with multiplicity — an id occurring
in both lists is counted twice. -/
theorem get_nb_submitted_for_concat (s : State) (a : Addr)
    (hpres : ∀ i ∈ (getA s.offers_to a).getD [] ++
               (getA s.offers_from a).getD [],
       (getA s.offers_with_id i).isSome = true) :
    get_nb_submitted_for s a =
      Except.ok
        (((getA s.offers_to a).getD [] ++
            (getA s.offers_from a).getD []).countP (isSubmittedIn s)) := by
  unfold get_nb_submitted_for
  rw [countSubmitted_ok s _ 0 hpres]
  simp

/-- Witness for C6 (amended): the duplicate-counting formula evaluated in
the self-offer state. -/
theorem get_nb_submitted_for_concat_witness :
    get_nb_submitted_for sSelf 7 =
      Except.ok
        (((getA sSelf.offers_to 7).getD [] ++
            (getA sSelf.offers_from 7).getD []).countP (isSubmittedIn sSelf)) :=
  get_nb_submitted_for_concat sSelf 7 (by decide)

/-- C7: `get_last_completed_offers` returns exactly the `Completed` ids of
the descending scan from the most recently issued id (`offers_count - 1`)
down to 1, truncated to the first `limit` hits, in descending order. -/
theorem get_last_completed_offers_spec (s : State) (limit : Nat)
    (hpres : ∀ i, 1 ≤ i → i < s.offers_count →
       (getA s.offers_with_id i).isSome = true) :
    get_last_completed_offers s limit =
      Except.ok
        ((((List.range' 1 (s.offers_count - 1)).reverse).filter
            (isCompletedIn s)).take limit) := by
  unfold get_last_completed_offers
  rw [scanCompleted_ok s limit _ [] ?hp]
  · simp
  case hp =>
    intro i hi
    rw [List.mem_reverse, List.mem_range'_1] at hi
    exact hpres i hi.1 (by omega)

/-- Witness for C7: with seven offers issued and ids 3, 5, 7 completed,
asking for the last 2 completed offers returns `[7, 5]`. -/
theorem get_last_completed_offers_spec_witness :
    get_last_completed_offers sSeven 2 = Except.ok [7, 5] := by
  have h := get_last_completed_offers_spec sSeven 2 (by decide)
  rw [h]
  rfl

/-- C8: a successful `delete_offer` returns the id, transfers exactly one
unit of the escrowed asset (the recorded `token_id`/`nonce`) to the caller,
flips only the offer's status to `Deleted`, and changes no other offer, no
party-index entry and not the counter. -/
theorem delete_offer_effects (s : State) (c : Addr) (id r : Nat) (s1 : State)
    (ps : List Payment) (o : Offer)
    (hlook : getA s.offers_with_id id = some o)
    (h : delete_offer s c id = Except.ok (r, s1, ps)) :
    r = id ∧
    ps = [Payment.asset c o.token_id o.nonce 1] ∧
    getA s1.offers_with_id id = some { o with status := Status.Deleted } ∧
    (∀ j : Nat, j ≠ id → getA s1.offers_with_id j = getA s.offers_with_id j) ∧
    s1.offers_to = s.offers_to ∧ s1.offers_from = s.offers_from ∧
    s1.offers_count = s.offers_count := by
  obtain ⟨-, -, hr, hcount, hstore, hto, hfrom, hps⟩ :=
    delete_offer_eq_ok s c id r s1 ps o hlook h
  refine ⟨hr, hps, ?_, ?_, hto, hfrom, hcount⟩
  · rw [hstore, getA_setA, if_pos rfl]
  · intro j hj
    rw [hstore, getA_setA, if_neg (fun hh => hj hh.symm)]

/-- Witness for C8: deleting the concrete offer 1 returns the NFT
(token 3, nonce 5, quantity 1) to holder 7, marks it `Deleted`, and leaves
the indices and counter unchanged. -/
theorem delete_offer_effects_witness :
    (1 : Nat) = 1 ∧
    [Payment.asset 7 (TokenIdentifier.token 3) 5 1] =
      [Payment.asset 7 offerC.token_id offerC.nonce 1] ∧
    getA sDeleted.offers_with_id 1 =
      some { offerC with status := Status.Deleted } ∧
    sDeleted.offers_to = sCreated.offers_to ∧
    sDeleted.offers_from = sCreated.offers_from ∧
    sDeleted.offers_count = sCreated.offers_count := by
  have h := delete_offer_effects sCreated 7 1 1 sDeleted
    [Payment.asset 7 (TokenIdentifier.token 3) 5 1] offerC
    (by decide) (by decide)
  exact ⟨h.1, h.2.1, h.2.2.1, h.2.2.2.2.1, h.2.2.2.2.2.1, h.2.2.2.2.2.2⟩

/-- C9: the `amount >= 0` check of `create_offer` is vacuous for the
unsigned amount, so the "The amount specified is below zero" abort is
unreachable, and a creation with amount 0 succeeds. -/
theorem create_offer_amount_check_vacuous :
    (∀ (s : State) (c : Addr) (t : TokenIdentifier) (n : Nat) (sp : Addr)
       (amt : Nat),
       create_offer s c t n sp amt ≠
         Except.error "The amount specified is below zero") ∧
    isErr (create_offer initState 7 (TokenIdentifier.token 3) 0 8 0) =
      false := by
  constructor
  · intro s c t n sp amt h
    by_cases hov : s.offers_count + 1 < U64
    · rw [create_offer_ok s c t n sp amt hov] at h
      exact absurd h (by simp)
    · rw [create_offer_overflow s c t n sp amt hov] at h
      simp only [Except.error.injEq] at h
      exact absurd h (by decide)
  · rfl

/-- Witness for C9: a concrete creation never hits the below-zero abort,
and the amount-0 creation succeeds. -/
theorem create_offer_amount_check_vacuous_witness :
    create_offer initState 7 (TokenIdentifier.token 3) 0 8 5 ≠
      Except.error "The amount specified is below zero" ∧
    isErr (create_offer initState 7 (TokenIdentifier.token 3) 0 8 0) =
      false :=
  ⟨create_offer_amount_check_vacuous.1 initState 7 (TokenIdentifier.token 3)
     0 8 5,
   create_offer_amount_check_vacuous.2⟩

/-- C10: on an id with no stored offer, `delete_offer` and `accept_offer`
abort (the storage read of the missing record fails to decode) and the
state is completely unchanged — the call never proceeds on a defaulted
offer record. -/
theorem missing_offer_aborts (s : State) (c : Addr) (t : TokenIdentifier)
    (A id : Nat) (hnone : getA s.offers_with_id id = none) :
    delete_offer s c id = Except.error decodeErr ∧
    applyTx s (delete_offer s c id) = s ∧
    accept_offer s c t A id = Except.error decodeErr ∧
    applyTx s (accept_offer s c t A id) = s := by
  have h1 : delete_offer s c id = Except.error decodeErr := by
    unfold delete_offer
    simp only [hnone]
  have h2 : accept_offer s c t A id = Except.error decodeErr := by
    unfold accept_offer
    simp only [hnone]
  exact ⟨h1, by rw [h1]; rfl, h2, by rw [h2]; rfl⟩

/-- Witness for C10: id 1 was never created in the bootstrapped state, and
both endpoints abort on it without touching the state. -/
theorem missing_offer_aborts_witness :
    delete_offer initState 7 1 = Except.error decodeErr ∧
    applyTx initState (delete_offer initState 7 1) = initState ∧
    accept_offer initState 7 TokenIdentifier.egld 5 1 =
      Except.error decodeErr ∧
    applyTx initState (accept_offer initState 7 TokenIdentifier.egld 5 1) =
      initState :=
  missing_offer_aborts initState 7 TokenIdentifier.egld 5 1 (by decide)

end Middleman
